import Mathlib

/-!
Verification of the rpitalk serial speech-synthesizer emulator.

Shallow embedding of the Python sources:
- `src/dectalkemulator.py` (class DECtalkEmulator) under namespace `DECtalk`
- `src/litetalkemulator.py` (class LiteTalkEmulator, extending
  `src/hardwaresynthemulator.py` HardwareSynthEmulator) under namespace `LiteTalk`
- shared helpers (convertWithinRange, toInteger, speak) at top level.

Modelling choices, each noted at the definition it concerns:
- bytes are `Nat`, byte strings are `List Nat`;
- the range-mapping formula exists in two models: `convertWithinRange`, an
  exact-rational idealization with `int()` truncation toward zero, and
  `convertWithinRangeFP`, a bit-exact IEEE-754 binary64 model of the same
  formula (round-to-nearest ties-to-even at every operation); the two agree at
  the endpoints of the six device ranges the program uses but diverge on
  arbitrary ranges;
- calls on the Speech Dispatcher client (`speechClient`) are recorded as `SSIP`
  events; each call that the source wraps in try/except is given a success flag
  `ok : Bool` (false = the client raises); `speak`/`cancel` are modelled as
  always succeeding since no claim concerns their failure;
- Python exceptions that the source does not catch are `Except.error` values of
  type `PyErr`, threaded through every caller exactly where the source would
  propagate them.
-/

/-- Python exception classes that can escape the modelled code paths.
`adapterError` stands for any exception raised by a `speechClient` call at a
call site the source does not wrap in try/except. -/
inductive PyErr where
  | valueError
  | typeError
  | attributeError
  | indexError
  | adapterError
deriving DecidableEq, Repr

/-- Calls made on the Speech Dispatcher client (the back-end adapter). -/
inductive SSIP where
  | speak (text : String)
  | cancel
  | setRate (v : Int)
  | setPitch (v : Int)
  | setPitchRange (v : Int)
  | setVolume (v : Int)
  | setPunct (level : String)
  | setVoice (name : String)
deriving DecidableEq, Repr

/-- Python `int(q)` for a float `q`: truncation toward zero. -/
def truncToZero (q : ℚ) : ℤ :=
  if 0 ≤ q then ⌊q⌋ else ⌈q⌉

/-- `HardwareSynthEmulator.convertWithinRange` = `DECtalkEmulator.convertWithinRange`
(identical bodies, hardwaresynthemulator.py lines 91-97 and dectalkemulator.py
lines 78-84), specialised to the default target range `r2m = -100`, `r2x = 100`
(every call site in the sources uses the defaults):

  newValue = int((oldValue - (r1x - r1m)/2 - r1m) / ((r1x - r1m)/(r2x - r2m)) + (r2x + r2m)/2)
  return max(r2m, min(r2x, newValue))

This definition idealizes Python float division as exact division in `ℚ`; the
bit-exact binary64 model of the same formula is `convertWithinRangeFP` below.
On the six device ranges the program passes to the mapper the two coincide at
the endpoints; on arbitrary ranges they can differ by one (see the C3
counterexample at the range (0, 7)). -/
def convertWithinRange (oldValue r1m r1x : ℤ) : ℤ :=
  max (-100) (min 100 (truncToZero
    (((oldValue : ℚ) - ((r1x : ℚ) - (r1m : ℚ)) / 2 - (r1m : ℚ))
      / (((r1x : ℚ) - (r1m : ℚ)) / ((100 : ℚ) - (-100 : ℚ)))
      + ((100 : ℚ) + (-100 : ℚ)) / 2)))

/-- Split a character list at every separator the predicate accepts, keeping
empty pieces: Python `str.split(sep)` semantics (and, after filtering out the
empty pieces, Python whitespace `str.split()` semantics). -/
def splitIf (p : Char → Bool) : List Char → List (List Char)
  | [] => [[]]
  | c :: rest =>
    let r := splitIf p rest
    if p c then [] :: r
    else
      match r with
      | [] => [[c]]
      | t :: ts => (c :: t) :: ts

/-- Python `str.strip()`: drop leading and trailing whitespace. -/
def trimChars (cs : List Char) : List Char :=
  (((cs.dropWhile Char.isWhitespace).reverse).dropWhile Char.isWhitespace).reverse

/-- Python `str.strip()` packaged on `String`. -/
def pyStrip (s : String) : String :=
  String.mk (trimChars s.data)

/-- Python `str.lower()` on one character (ASCII; the protocol text is ASCII). -/
def charLower (c : Char) : Char :=
  if 65 ≤ c.toNat ∧ c.toNat ≤ 90 then Char.ofNat (c.toNat + 32) else c

/-- Digit-string value, `none` if empty or any non-digit. -/
def parseNatDigits : List Char → Option Nat
  | [] => none
  | cs =>
    cs.foldl
      (fun acc c =>
        match acc with
        | none => none
        | some n => if ('0' ≤ c ∧ c ≤ '9') then some (10 * n + (c.toNat - 48)) else none)
      (some 0)

/-- Python `int(s)` on a `str`: strip whitespace, optional single sign, digits;
raises ValueError otherwise. -/
def pyIntStr (s : String) : Except PyErr Int :=
  match trimChars s.data with
  | '+' :: cs =>
    match parseNatDigits cs with
    | some n => .ok (n : ℤ)
    | none => .error .valueError
  | '-' :: cs =>
    match parseNatDigits cs with
    | some n => .ok (-(n : ℤ))
    | none => .error .valueError
  | cs =>
    match parseNatDigits cs with
    | some n => .ok (n : ℤ)
    | none => .error .valueError

/-- Python `int(x)` where `x : Option String` (`None` gives TypeError). -/
def pyIntOpt : Option String → Except PyErr Int
  | none => .error .typeError
  | some s => pyIntStr s

/-- Python `int(b)` on a `bytearray`: ASCII-decodes then parses; a non-ASCII
byte makes `int` raise ValueError. -/
def pyIntBytes (bs : List Nat) : Except PyErr Int :=
  if bs.all (fun b => b < 128) then pyIntStr (String.mk (bs.map Char.ofNat))
  else .error .valueError

/-- `HardwareSynthEmulator.toInteger` (lines 85-89): `int(bytes)` with
TypeError/ValueError caught, returning the default. -/
def toInteger (bs : List Nat) (dflt : Int) : Int :=
  match pyIntBytes bs with
  | .ok v => v
  | .error _ => dflt

/-- `bytes.decode(errors="ignore")`. The scratch buffers only ever receive
bytes in `0x20..0x7E` (see the `parse` methods), where dropping non-ASCII
bytes agrees exactly with Python. -/
def decodeIgnore (bs : List Nat) : String :=
  String.mk ((bs.filter (fun b => b < 128)).map Char.ofNat)

/-- `bytes.decode("utf-8")` (strict). On the ASCII-only byte lists the scratch
buffer can actually hold (only `0x20..0x7E` is ever appended) this is exact; a
byte outside ASCII is treated as a decode error (UnicodeDecodeError is a
subclass of ValueError in Python). -/
def decodeUtf8 (bs : List Nat) : Except PyErr String :=
  if bs.all (fun b => b < 128) then .ok (String.mk (bs.map Char.ofNat))
  else .error .valueError

/-- `speak` (dectalkemulator.py lines 235-237, hardwaresynthemulator.py lines
100-102): `if text.strip(): self.speechClient.speak(text)`. -/
def speakEv (text : String) (evs : List SSIP) : List SSIP :=
  if pyStrip text = ("") then evs else evs ++ [SSIP.speak text]

/-- Python truthiness of a `str`-or-`None` value. -/
def pyTruthy : Option String → Bool
  | none => false
  | some s => s != ""

/-- The source condition `strValue[0] == 0x2B` where `strValue` is a Python
`str` (as in every DECtalkEmulator setter call site: the constructor passes
f-strings and `processCommands` passes tokens of a decoded string).
`strValue[0]` is a length-1 `str`, and `==` between `str` and `int` is always
`False` in Python, so this is constantly `false`. -/
def pyStrIdxEqInt (strValue : Option String) (code : Nat) : Bool :=
  false

/-- The source condition `strValue and (strValue[0] == 0x2B or strValue[0] == 0x2D)`
where `strValue` is a `bytearray` (as in every LiteTalkEmulator setter call from
`parse`): indexing a bytearray gives an `int`, so the comparison is genuine. -/
def bytesDeltaCond (strValue : List Nat) : Bool :=
  match strValue with
  | [] => false
  | b :: _ => b == 0x2B || b == 0x2D

/-- `Identity Version\r` = `"RPItalk 0.9\r"` (`DeviceIdString` in both
emulator classes). -/
def deviceIdString : String :=
  "RPItalk 0.9\r"

/-- `DeviceIdString.encode("ascii")`. -/
def deviceIdBytes : List Nat :=
  deviceIdString.data.map Char.toNat

/-- ASCII bytes of a string, for feeding literal byte streams to `parse`. -/
def strToBytes (s : String) : List Nat :=
  s.data.map Char.toNat

namespace DECtalk

/-- Session state of a `DECtalkEmulator` (its mutable instance attributes).
`commandMode` is `None` at construction and only ever compared for truthiness,
so it is modelled as `Bool` with `false` for `None`. `punctuation` holds the
stored key letter (`None` initially), `range` is created only by
`setSpeechRange`, `g5` starts as `None`. -/
structure State where
  rate : Int
  pitch : Int
  volume : Int
  g5 : Option Int
  range : Option Int
  punctuation : Option String
  commandMode : Bool
  characterBuffer : List Nat
deriving DecidableEq, Repr

/-- `DECtalkEmulator.setSpeechRate` (lines 122-138). `ok` is the success of the
`speechClient.set_rate` call; on failure the exception is caught, logged, and
`self.rate` is left unchanged. -/
def setSpeechRate (ok : Bool) (strValue : Option String) (st : State) :
    Except PyErr (State × List SSIP) :=
  match (if pyTruthy strValue && (pyStrIdxEqInt strValue 0x2B || pyStrIdxEqInt strValue 0x2D) then
          match pyIntOpt strValue with
          | .error e => .error e
          | .ok d => .ok (st.rate + d)
         else pyIntOpt strValue : Except PyErr Int) with
  | .error e => .error e
  | .ok newValue =>
    if ok then .ok ({ st with rate := newValue }, [SSIP.setRate (convertWithinRange newValue 75 650)])
    else .ok (st, [])

/-- `DECtalkEmulator.setSpeechPitch` (lines 86-103). Note the source passes
`newValue + 40` to `convertWithinRange`, with device range 50-200. -/
def setSpeechPitch (ok : Bool) (strValue : Option String) (st : State) :
    Except PyErr (State × List SSIP) :=
  match (if pyTruthy strValue && (pyStrIdxEqInt strValue 0x2B || pyStrIdxEqInt strValue 0x2D) then
          match pyIntOpt strValue with
          | .error e => .error e
          | .ok d => .ok (st.pitch + d)
         else pyIntOpt strValue : Except PyErr Int) with
  | .error e => .error e
  | .ok newValue =>
    if ok then .ok ({ st with pitch := newValue }, [SSIP.setPitch (convertWithinRange (newValue + 40) 50 200)])
    else .ok (st, [])

/-- `DECtalkEmulator.setSpeechRange` (lines 105-120). The relative branch of
the source reads `self.pitch` (line 111), embedded as written; `setValue` is
`max(0, min(100, newValue))`. On success the source creates/sets `self.range`. -/
def setSpeechRange (ok : Bool) (strValue : Option String) (st : State) :
    Except PyErr (State × List SSIP) :=
  match (if pyTruthy strValue && (pyStrIdxEqInt strValue 0x2B || pyStrIdxEqInt strValue 0x2D) then
          match pyIntOpt strValue with
          | .error e => .error e
          | .ok d => .ok (st.pitch + d)
         else pyIntOpt strValue : Except PyErr Int) with
  | .error e => .error e
  | .ok newValue =>
    if ok then .ok ({ st with range := some newValue }, [SSIP.setPitchRange (max 0 (min 100 newValue))])
    else .ok (st, [])

/-- `DECtalkEmulator.setSpeechVolume` (lines 140-156). -/
def setSpeechVolume (ok : Bool) (strValue : Option String) (st : State) :
    Except PyErr (State × List SSIP) :=
  match (if pyTruthy strValue && (pyStrIdxEqInt strValue 0x2B || pyStrIdxEqInt strValue 0x2D) then
          match pyIntOpt strValue with
          | .error e => .error e
          | .ok d => .ok (st.volume + d)
         else pyIntOpt strValue : Except PyErr Int) with
  | .error e => .error e
  | .ok newValue =>
    if ok then .ok ({ st with volume := newValue }, [SSIP.setVolume (convertWithinRange newValue 0 100)])
    else .ok (st, [])

/-- `DECtalkEmulator.setSpeechG5` (lines 158-174). The relative branch adds to
`self.g5`, which is `None` until first assigned (TypeError if taken then); the
success path of the source calls `set_volume` and assigns `self.volume = newValue`
(lines 170-171), embedded exactly as written. -/
def setSpeechG5 (ok : Bool) (strValue : Option String) (st : State) :
    Except PyErr (State × List SSIP) :=
  match (if pyTruthy strValue && (pyStrIdxEqInt strValue 0x2B || pyStrIdxEqInt strValue 0x2D) then
          match st.g5 with
          | none => .error .typeError
          | some g =>
            match pyIntOpt strValue with
            | .error e => .error e
            | .ok d => .ok (g + d)
         else pyIntOpt strValue : Except PyErr Int) with
  | .error e => .error e
  | .ok newValue =>
    if ok then .ok ({ st with volume := newValue }, [SSIP.setVolume (convertWithinRange newValue 60 86)])
    else .ok (st, [])

/-- `DECtalkEmulator.setSpeechPunctuation` (lines 176-197). `key` is
`strValue.lower()[:1]`; a key outside the mapping `n/s/a/p` raises ValueError
(before the try block, hence uncaught here); an adapter failure on
`set_punctuation` is caught and leaves `self.punctuation` unchanged. -/
def setSpeechPunctuation (ok : Bool) (strValue : Option String) (st : State) :
    Except PyErr (State × List SSIP) :=
  match strValue with
  | none => .error .attributeError
  | some s =>
    let key := String.mk ((s.data.map charLower).take 1)
    if key = "n" ∨ key = "s" ∨ key = "a" ∨ key = "p" then
      let setValue := if key = "s" then "some" else if key = "a" then "all" else "none"
      if ok then .ok ({ st with punctuation := some key }, [SSIP.setPunct setValue])
      else .ok (st, [])
    else .error .valueError

/-- The 10-entry voice table of `setVoiceByID` (lines 217-228). -/
def voiceMapping : List String :=
  ["default", "MALE1", "MALE2", "MALE3", "MALE3", "CHILD_MALE",
   "FEMALE1", "FEMALE2", "FEMALE3", "CHILD_FEMALE"]

/-- `DECtalkEmulator.setVoiceByID` (lines 214-233): ids outside 0-9 are ignored;
the `speechClient.set_voice` call is NOT wrapped in try/except, so an adapter
failure (`ok = false`) propagates as an exception. -/
def setVoiceByID (ok : Bool) (voiceID : Int) (st : State) :
    Except PyErr (State × List SSIP) :=
  if voiceID ≥ 0 ∧ voiceID ≤ 9 then
    if ok then .ok (st, [SSIP.setVoice (voiceMapping.getD voiceID.toNat ("default"))])
    else .error .adapterError
  else .ok (st, [])

/-- `DECtalkEmulator.setVoiceByName` (lines 199-212): only the letter `p` maps
(to voice id 1); any other name raises ValueError. -/
def setVoiceByName (ok : Bool) (voiceName : Option String) (st : State) :
    Except PyErr (State × List SSIP) :=
  match voiceName with
  | none => .error .attributeError
  | some s =>
    let key := String.mk ((s.data.map charLower).take 1)
    if key = "p" then setVoiceByID ok 1 st
    else .error .valueError

/-- One sub-command of `processCommands` (loop body, lines 243-281):
`parms = command.split()` padded with `None` to three entries, `cmd = parms[0][:2]`,
then the elif chain on `cmd`. A missing `parms[0]` makes `None[:2]` raise
TypeError; `cmd[1]` on a one-character `cmd` raises IndexError. -/
def runCommand (ok : Bool) (command : String) (st : State) :
    Except PyErr (State × List SSIP) :=
  let parms := ((splitIf Char.isWhitespace command.data).filter (fun t => t ≠ [])).map String.mk
  match parms[0]? with
  | none => .error .typeError
  | some s0 =>
    let cmd := String.mk (s0.data.take 2)
    let val := parms[1]?
    if cmd = "ra" ∧ val ≠ some "" then setSpeechRate ok val st
    else if cmd = "vo" ∧ val ≠ some "" then setSpeechVolume ok val st
    else if cmd = "pu" ∧ val ≠ some "" then setSpeechPunctuation ok val st
    else if cmd = "na" ∧ val ≠ some "" then setVoiceByName ok val st
    else if cmd = "dv" ∧ val ≠ some "" then
      let sbc := parms[1]?
      let val2 := parms[2]?
      if sbc = some "ap" ∧ val2 ≠ some "" then setSpeechPitch ok val2 st
      else if sbc = some "g5" ∧ val2 ≠ some "" then setSpeechG5 ok val2 st
      else if sbc = some "pr" ∧ val2 ≠ some "" then setSpeechRange ok val2 st
      else .ok (st, [])
    else
      match cmd.data with
      | 'n' :: rest =>
        match rest with
        | [] => .error .indexError
        | c1 :: _ =>
          if '0' ≤ c1 ∧ c1 ≤ '9' then setVoiceByID ok ((c1.toNat : Int) - 48) st
          else .ok (st, [])
      | _ => .ok (st, [])

/-- The `for command in commands` loop of `processCommands`: empty pieces are
skipped (`if not command: continue`); an exception from any sub-command
propagates out. -/
def processCommandList (ok : Bool) : List String → State → Except PyErr (State × List SSIP)
  | [], st => .ok (st, [])
  | c :: rest, st =>
    if c = "" then processCommandList ok rest st
    else
      match runCommand ok c st with
      | .error e => .error e
      | .ok (st1, evs1) =>
        match processCommandList ok rest st1 with
        | .error e => .error e
        | .ok (st2, evs2) => .ok (st2, evs1 ++ evs2)

/-- `DECtalkEmulator.processCommands` (lines 240-281):
`commands = buffer.strip().split(":")`, then the per-command loop. -/
def processCommands (ok : Bool) (buffer : String) (st : State) :
    Except PyErr (State × List SSIP) :=
  processCommandList ok ((splitIf (fun c => c = ':') (trimChars buffer.data)).map String.mk) st

/-- The byte-classification block of `DECtalkEmulator.parse` (lines 288-307):
break / index / command-start / command-end / printable. The triple carries
(session state, `response` bytearray, adapter events so far). -/
def parseByteMain (ok : Bool) (st : State) (resp : List Nat) (evs : List SSIP) (byte : Nat) :
    Except PyErr (State × List Nat × List SSIP) :=
  if byte = 0x03 then .ok (st, resp ++ [0x01], evs ++ [SSIP.cancel])
  else if byte = 0x0B then .ok (st, resp ++ [0x0B], evs)
  else if byte = 0x5B then .ok ({ st with commandMode := true }, resp, evs)
  else if byte = 0x5D then
    if st.characterBuffer ≠ [] then
      match decodeUtf8 st.characterBuffer with
      | .error e => .error e
      | .ok s =>
        match processCommands ok s st with
        | .error e => .error e
        | .ok (st1, evs1) =>
          .ok ({ st1 with characterBuffer := [], commandMode := false }, resp, evs ++ evs1)
    else .ok ({ st with commandMode := false }, resp, evs)
  else if 0x20 ≤ byte ∧ byte ≤ 0x7E then
    .ok ({ st with characterBuffer := st.characterBuffer ++ [byte] }, resp, evs)
  else .ok (st, resp, evs)

/-- One iteration of the `for byte in data` loop of `DECtalkEmulator.parse`
(lines 286-311): the classification block followed by the flush check
`if byte == BreakChar or byte == IndexChar or byte == CommandStart or
len(self.characterBuffer) >= self.MaxBufferSize`. -/
def parseByte (ok : Bool) (full : State × List Nat × List SSIP) (byte : Nat) :
    Except PyErr (State × List Nat × List SSIP) :=
  match parseByteMain ok full.1 full.2.1 full.2.2 byte with
  | .error e => .error e
  | .ok (st, resp, evs) =>
    if byte = 0x03 ∨ byte = 0x0B ∨ byte = 0x5B ∨ st.characterBuffer.length ≥ 4096 then
      .ok ({ st with characterBuffer := [] }, resp, speakEv (decodeIgnore st.characterBuffer) evs)
    else .ok (st, resp, evs)

/-- `DECtalkEmulator.parse` (lines 283-312): fold of `parseByte` over the
incoming bytes, starting from an empty local `response`. -/
def parse (ok : Bool) : List Nat → (State × List Nat × List SSIP) →
    Except PyErr (State × List Nat × List SSIP)
  | [], full => .ok full
  | b :: rest, full =>
    match parseByte ok full b with
    | .error e => .error e
    | .ok full1 => parse ok rest full1

end DECtalk

/-- Session state after `DECtalkEmulator.__init__` with the default arguments
`rate=400, pitch=200, volume=50`: the constructor re-applies exactly these
values through the setters, so the stored raw values equal the defaults;
`g5`, `punctuation` and `commandMode` are `None`, the buffer empty. -/
def dtInit : DECtalk.State :=
  { rate := 400, pitch := 200, volume := 50, g5 := none, range := none,
    punctuation := none, commandMode := false, characterBuffer := [] }

namespace LiteTalk

/-- Session state of a `LiteTalkEmulator` (including the `received` and
`response` bytearrays inherited from `HardwareSynthEmulator`). `punctuation`
is initialised to the string `"n"` but `setSpeechPunctuation` stores an integer
key, hence the sum type. -/
structure State where
  rate : Int
  pitch : Int
  volume : Int
  punctuation : Sum String Int
  commandMode : Bool
  received : List Nat
  response : List Nat
deriving DecidableEq, Repr

/-- `LiteTalkEmulator.setSpeechRate` (lines 57-73): relative values add
`toInteger(strValue, 0)` to the session rate; absolute values default to 8;
device range 0-9; adapter failure caught, `self.rate` unchanged. -/
def setSpeechRate (ok : Bool) (strValue : List Nat) (st : State) :
    Except PyErr (State × List SSIP) :=
  let newValue := if bytesDeltaCond strValue then st.rate + toInteger strValue 0
                  else toInteger strValue 8
  if ok then .ok ({ st with rate := newValue }, [SSIP.setRate (convertWithinRange newValue 0 9)])
  else .ok (st, [])

/-- `LiteTalkEmulator.setSpeechPitch` (lines 75-91): absolute default 50,
device range 0-99. -/
def setSpeechPitch (ok : Bool) (strValue : List Nat) (st : State) :
    Except PyErr (State × List SSIP) :=
  let newValue := if bytesDeltaCond strValue then st.pitch + toInteger strValue 0
                  else toInteger strValue 50
  if ok then .ok ({ st with pitch := newValue }, [SSIP.setPitch (convertWithinRange newValue 0 99)])
  else .ok (st, [])

/-- `LiteTalkEmulator.setSpeechVolume` (lines 93-109): the relative branch
calls `self.toInnteger(strValue, 0)` - a misspelling of `toInteger`; no such
attribute exists, so taking that branch raises AttributeError at runtime
(before the try block, hence uncaught). The absolute branch works normally
(default 5, device range 0-9). -/
def setSpeechVolume (ok : Bool) (strValue : List Nat) (st : State) :
    Except PyErr (State × List SSIP) :=
  if bytesDeltaCond strValue then .error .attributeError
  else
    let newValue := toInteger strValue 5
    if ok then .ok ({ st with volume := newValue }, [SSIP.setVolume (convertWithinRange newValue 0 9)])
    else .ok (st, [])

/-- The punctuation table of `setSpeechPunctuation` (line 115). -/
def punctMapping : List String :=
  ["all", "most", "some", "none"]

/-- `LiteTalkEmulator.setSpeechPunctuation` (lines 111-126): `key` defaults to
7; a key outside 0-15 raises ValueError (uncaught); otherwise the level is
`mapping[key % 4]`; adapter failure caught, `self.punctuation` unchanged. -/
def setSpeechPunctuation (ok : Bool) (strValue : List Nat) (st : State) :
    Except PyErr (State × List SSIP) :=
  let key := toInteger strValue 7
  if key < 0 ∨ key > 15 then .error .valueError
  else
    let setValue := punctMapping.getD ((key % 4).toNat) ("none")
    if ok then .ok ({ st with punctuation := Sum.inr key }, [SSIP.setPunct setValue])
    else .ok (st, [])

/-- The command-mode terminator dispatch of `LiteTalkEmulator.parse`
(lines 141-180): the `elif self.commandMode:` branch. -/
def commandDispatch (ok : Bool) (st : State) (evs : List SSIP) (byte : Nat) :
    Except PyErr (State × List SSIP) :=
  if byte = 0x3F then
      let resp2 := st.response ++ [0x00, 0x20] ++ deviceIdBytes ++ [0x0D, 0x7F]
      .ok ({ st with response := resp2, commandMode := false }, evs)
    else if byte = 0x49 then
      .ok ({ st with response := st.response ++ deviceIdBytes ++ [0x0D], commandMode := false }, evs)
    else if byte = 0x45 then
      .ok ({ st with response := st.response ++ [0x0D], commandMode := false }, evs)
    else if byte = 0x73 then
      match setSpeechRate ok st.received st with
      | .error e => .error e
      | .ok (st1, evs1) => .ok ({ st1 with received := [], commandMode := false }, evs ++ evs1)
    else if byte = 0x70 then
      match setSpeechPitch ok st.received st with
      | .error e => .error e
      | .ok (st1, evs1) => .ok ({ st1 with received := [], commandMode := false }, evs ++ evs1)
    else if byte = 0x76 then
      match setSpeechVolume ok st.received st with
      | .error e => .error e
      | .ok (st1, evs1) => .ok ({ st1 with received := [], commandMode := false }, evs ++ evs1)
    else if byte = 0x62 then
      match setSpeechPunctuation ok st.received st with
      | .error e => .error e
      | .ok (st1, evs1) => .ok ({ st1 with received := [], commandMode := false }, evs ++ evs1)
    else if (0x30 ≤ byte ∧ byte ≤ 0x39) ∨ byte = 0x2B ∨ byte = 0x2D then
      .ok ({ st with received := st.received ++ [byte] }, evs)
    else
      .ok ({ st with received := [], commandMode := false }, evs)

/-- The byte-classification block of `LiteTalkEmulator.parse` (lines 130-185):
cancel / command-code / command-mode dispatch / printable accumulation. -/
def parseByteMain (ok : Bool) (st : State) (evs : List SSIP) (byte : Nat) :
    Except PyErr (State × List SSIP) :=
  if byte = 0x18 then
    .ok ({ st with received := [], response := st.response ++ [0x0D] }, evs ++ [SSIP.cancel])
  else if byte = 0x01 then
    .ok ({ st with received := [], commandMode := true }, speakEv (decodeIgnore st.received) evs)
  else if st.commandMode then
    commandDispatch ok st evs byte
  else if 0x20 ≤ byte ∧ byte ≤ 0x7E then
    .ok ({ st with received := st.received ++ [byte] }, evs)
  else .ok (st, evs)

/-- One iteration of the `for byte in data` loop of `LiteTalkEmulator.parse`
(lines 130-189): the classification block followed by the flush check
`if byte == 0x00 or byte == self.ReturnChar or len(self.received) >= self.MaxBufferSize`. -/
def parseByte (ok : Bool) (full : State × List SSIP) (byte : Nat) :
    Except PyErr (State × List SSIP) :=
  match parseByteMain ok full.1 full.2 byte with
  | .error e => .error e
  | .ok (st, evs) =>
    if byte = 0x00 ∨ byte = 0x0D ∨ st.received.length ≥ 4096 then
      .ok ({ st with received := [] }, speakEv (decodeIgnore st.received) evs)
    else .ok (st, evs)

/-- `LiteTalkEmulator.parse` (lines 129-189): fold of `parseByte`. -/
def parse (ok : Bool) : List Nat → (State × List SSIP) → Except PyErr (State × List SSIP)
  | [], full => .ok full
  | b :: rest, full =>
    match parseByte ok full b with
    | .error e => .error e
    | .ok full1 => parse ok rest full1

end LiteTalk

/-- Session state after `LiteTalkEmulator.__init__` with the default arguments
`rate=5, pitch=50, punctuation="n", volume=5`: the constructor re-applies rate
and pitch through the setters (string arguments, so the absolute branch), so
the stored raw values equal the defaults; `commandMode` is `None`, the
buffers empty. -/
def ltInit : LiteTalk.State :=
  { rate := 5, pitch := 50, volume := 5, punctuation := Sum.inl "n",
    commandMode := false, received := [], response := [] }

/-- Bytes a scratch buffer can actually contain: the `parse` methods only ever
append bytes in `0x20..0x7E`. -/
def printableBytes (bs : List Nat) : Prop :=
  ∀ x ∈ bs, 0x20 ≤ x ∧ x ≤ 0x7E

/-- DECtalk buffer invariant: printable content, strictly below `MaxBufferSize`. -/
def dtBufInv (st : DECtalk.State) : Prop :=
  printableBytes st.characterBuffer ∧ st.characterBuffer.length < 4096

/-- The DECtalk buffer invariant holds of a `parse` step result (vacuous on a
propagated exception, which aborts the stream). -/
def dtStepOk (r : Except PyErr (DECtalk.State × List Nat × List SSIP)) : Prop :=
  match r with
  | .ok full => dtBufInv full.1
  | .error _ => True

/-- LiteTalk buffer invariant: printable content, strictly below `MaxBufferSize`. -/
def ltBufInv (st : LiteTalk.State) : Prop :=
  printableBytes st.received ∧ st.received.length < 4096

/-- The LiteTalk buffer invariant holds of a `parse` step result. -/
def ltStepOk (r : Except PyErr (LiteTalk.State × List SSIP)) : Prop :=
  match r with
  | .ok full => ltBufInv full.1
  | .error _ => True

/-- A 4095-byte all-printable buffer, one byte short of `MaxBufferSize`. -/
def bigBuf : List Nat :=
  List.replicate 4095 0x61

/-!
Bit-exact model of the IEEE-754 binary64 (CPython `float`) arithmetic in
`convertWithinRange`. A finite double is represented as a pair
`(m, e) : ℤ × ℤ` denoting the value `m * 2 ^ e` with `|m| ≤ 2 ^ 53`; every
operation computes the exact result and then rounds the significand to 53
bits, round-to-nearest with ties to even, exactly as IEEE-754 prescribes.
Exponent overflow to infinity and subnormals are not modelled: every value
arising in the theorems stated about this model is far inside the normal
range. `convertWithinRange` above is the exact-rational idealization of the
same formula; the two agree at every endpoint of the six device ranges the
program passes to the mapper (see the C3 theorems), but not for arbitrary
ranges.
-/

/-- Equality of `Except` results is decidable componentwise. -/
instance {ε α : Type} [DecidableEq ε] [DecidableEq α] : DecidableEq (Except ε α) := fun x y =>
  match x, y with
  | .ok a, .ok b => decidable_of_iff (a = b) (by simp)
  | .error e, .error f => decidable_of_iff (e = f) (by simp)
  | .ok _, .error _ => isFalse (by simp)
  | .error _, .ok _ => isFalse (by simp)

/-- C1: with the session rate initialised to 400, the command string
`:ra 300` stores rate 300 as claimed, but the subsequent `:ra +50` stores
rate 50, not 350: the relative branch of `setSpeechRate` guards on
`strValue[0] == 0x2B`, a `str`-vs-`int` comparison that is always `False`
in Python, so `int("+50") = 50` is stored as an absolute value. -/
theorem dectalk_signed_delta_code_bug :
    (DECtalk.processCommands true (":ra 300") dtInit).map (fun r => r.1.rate) = .ok 300
  ∧ ((DECtalk.processCommands true (":ra 300") dtInit).bind
      (fun r => DECtalk.processCommands true (":ra +50") r.1)).map (fun r => r.1.rate) = .ok 50
  ∧ ((DECtalk.processCommands true (":ra 300") dtInit).bind
      (fun r => DECtalk.processCommands true (":ra +50") r.1)).map (fun r => r.1.rate) ≠ .ok 350 := by
  refine ⟨by decide, by decide, by decide⟩

/-- C2 counterexample: an invalid DECtalk punctuation letter makes the decoder
itself return the ValueError — the exception escapes `processCommands` and
`parse` instead of being caught at a dispatch boundary, so on this input the
stream is aborted. -/
theorem valueError_escapes_decoder_cex :
    DECtalk.parse true (strToBytes ("[:pu q]")) (dtInit, [], []) = .error .valueError := by
  decide

/-- C2 amended: each protocol validation failure (invalid DECtalk punctuation
letter, invalid DECtalk voice name, out-of-range LiteTalk punctuation code)
raises ValueError at the point of decode and the error propagates out of the
decoder uncaught (the transport loop catches only OSError), aborting the
stream. -/
theorem validation_error_propagation :
    DECtalk.parse true (strToBytes ("[:pu x]")) (dtInit, [], []) = .error .valueError
  ∧ DECtalk.parse true (strToBytes ("[:na q]")) (dtInit, [], []) = .error .valueError
  ∧ LiteTalk.parse true [0x01, 0x39, 0x39, 0x62] (ltInit, []) = .error .valueError := by
  refine ⟨by decide, by decide, by decide⟩

/-- C6: a LiteTalk volume command whose accumulated text begins with a sign
(`+2` followed by the volume terminator 0x76) raises AttributeError — the
relative branch calls the misspelled, nonexistent helper `toInnteger` — so the
signed-delta volume path cannot execute. -/
theorem litetalk_volume_delta_code_bug :
    LiteTalk.parse true [0x01, 0x2B, 0x32, 0x76] (ltInit, []) = .error .attributeError := by
  decide

/-- C8: from Idle with an empty buffer, the LiteTalk byte sequence
`[0x01, 0x3F]` produces exactly the fixed 2-byte header `0x00 0x20`, the
identification string, CR and `0x7F`, leaves the mode at Idle and the buffer
empty, with no adapter call. -/
theorem litetalk_interrogation_response :
    LiteTalk.parse true [0x01, 0x3F] (ltInit, []) =
      .ok ({ ltInit with response := [0x00, 0x20] ++ deviceIdBytes ++ [0x0D, 0x7F] }, []) := by
  decide

/-- Flushing an empty buffer speaks nothing: `speak` is a no-op on blank text. -/
theorem speakEv_empty (evs : List SSIP) : speakEv (decodeIgnore []) evs = evs := by
  unfold speakEv
  rw [if_pos (by decide)]

/-- C9: any byte received in LiteTalk command mode that is no recognised
terminator, no digit or sign, and not the cancel or command-code byte discards
the accumulated buffer, returns the mode to Idle, and calls no setter (no
adapter event, response untouched). -/
theorem litetalk_unhandled_command (ok : Bool) (b : Nat) (st : LiteTalk.State) (evs : List SSIP)
    (hcm : st.commandMode = true)
    (h1 : b ≠ 0x3F) (h2 : b ≠ 0x49) (h3 : b ≠ 0x45) (h4 : b ≠ 0x73) (h5 : b ≠ 0x70)
    (h6 : b ≠ 0x76) (h7 : b ≠ 0x62) (h8 : ¬(0x30 ≤ b ∧ b ≤ 0x39)) (h9 : b ≠ 0x2B)
    (h10 : b ≠ 0x2D) (h11 : b ≠ 0x18) (h12 : b ≠ 0x01) :
    LiteTalk.parseByte ok (st, evs) b =
      .ok ({ st with received := [], commandMode := false }, evs) := by
  have hd : ¬((0x30 ≤ b ∧ b ≤ 0x39) ∨ b = 0x2B ∨ b = 0x2D) := by
    simp only [not_or]
    exact ⟨h8, h9, h10⟩
  simp only [LiteTalk.parseByte, LiteTalk.parseByteMain, LiteTalk.commandDispatch, hcm]
  rw [if_neg h11, if_neg h12, if_neg h1, if_neg h2, if_neg h3, if_neg h4,
    if_neg h5, if_neg h6, if_neg h7, if_neg hd]
  simp only [if_true]
  try dsimp only
  by_cases hb0 : b = 0x00 ∨ b = 0x0D
  · rw [if_pos (Or.elim hb0 Or.inl (fun hx => Or.inr (Or.inl hx)))]
    rw [speakEv_empty]
  · rw [if_neg (by
      simp only [not_or]
      push_neg at hb0
      exact ⟨hb0.1, hb0.2, by simp⟩)]

/-- C9 witness: the unrecognised terminator `0x40` in command mode with a
pending digit. -/
theorem litetalk_unhandled_command_witness :
    LiteTalk.parseByte true ({ ltInit with commandMode := true, received := [0x33] }, []) 0x40 =
      .ok (ltInit, []) :=
  litetalk_unhandled_command true 0x40 ({ ltInit with commandMode := true, received := [0x33] })
    [] rfl (by decide) (by decide) (by decide) (by decide) (by decide) (by decide) (by decide)
    (by decide) (by decide) (by decide) (by decide) (by decide)

/-- C10: a DECtalk break byte (0x03) with literal text pending (non-blank
buffer) cancels current speech, appends the single 0x01 acknowledgement to the
response, and also speaks the pending buffered text and clears the buffer. -/
theorem dectalk_break_flushes_text (ok : Bool) (st : DECtalk.State) (resp : List Nat)
    (evs : List SSIP) (h : pyStrip (decodeIgnore st.characterBuffer) ≠ ("")) :
    DECtalk.parseByte ok (st, resp, evs) 0x03 =
      .ok ({ st with characterBuffer := [] }, resp ++ [0x01],
        evs ++ [SSIP.cancel] ++ [SSIP.speak (decodeIgnore st.characterBuffer)]) := by
  simp only [DECtalk.parseByte, DECtalk.parseByteMain]
  simp only [if_true]
  try dsimp only
  simp only [true_or, if_true]
  unfold speakEv
  rw [if_neg h]

/-- C10 witness: break with the two-byte buffer "hi" pending. -/
theorem dectalk_break_flushes_text_witness :
    DECtalk.parseByte true ({ dtInit with characterBuffer := [0x68, 0x69] }, [], []) 0x03 =
      .ok ({ dtInit with characterBuffer := [] }, [0x01],
        [SSIP.cancel, SSIP.speak (decodeIgnore [0x68, 0x69])]) :=
  dectalk_break_flushes_text true ({ dtInit with characterBuffer := [0x68, 0x69] }) [] []
    (by decide)


/-- After a command-mode dispatch step the LiteTalk buffer is unchanged,
cleared, or extended by one printable byte. -/
theorem lt_commandDispatch_buffer (ok : Bool) (st : LiteTalk.State)
    (evs : List SSIP) (b : Nat) (r : LiteTalk.State × List SSIP)
    (h : LiteTalk.commandDispatch ok st evs b = Except.ok r) :
    r.1.received = st.received ∨ r.1.received = [] ∨
      (r.1.received = st.received ++ [b] ∧ 0x20 ≤ b ∧ b ≤ 0x7E) := by
  unfold LiteTalk.commandDispatch at h
  repeat' split at h
  all_goals (try exact (Except.noConfusion h))
  all_goals (try dsimp only at h)
  all_goals injection h with h
  all_goals subst h
  all_goals dsimp only
  all_goals (try (exact Or.inl rfl))
  all_goals (try (exact Or.inr (Or.inl rfl)))
  · rename_i hcond
    rcases hcond with hd | hs | hs
    · exact Or.inr (Or.inr ⟨rfl, by omega, by omega⟩)
    · exact Or.inr (Or.inr ⟨rfl, by omega, by omega⟩)
    · exact Or.inr (Or.inr ⟨rfl, by omega, by omega⟩)

/-- After the LiteTalk byte-classification block the buffer is unchanged,
cleared, or extended by one printable byte. -/
theorem lt_parseByteMain_buffer (ok : Bool) (st : LiteTalk.State)
    (evs : List SSIP) (b : Nat) (r : LiteTalk.State × List SSIP)
    (h : LiteTalk.parseByteMain ok st evs b = Except.ok r) :
    r.1.received = st.received ∨ r.1.received = [] ∨
      (r.1.received = st.received ++ [b] ∧ 0x20 ≤ b ∧ b ≤ 0x7E) := by
  unfold LiteTalk.parseByteMain at h
  repeat' split at h
  · injection h with h
    subst h
    exact Or.inr (Or.inl rfl)
  · injection h with h
    subst h
    exact Or.inr (Or.inl rfl)
  · exact lt_commandDispatch_buffer ok st evs b r h
  · rename_i hcond
    injection h with h
    subst h
    exact Or.inr (Or.inr ⟨rfl, hcond.1, hcond.2⟩)
  · injection h with h
    subst h
    exact Or.inl rfl

/-- After the DECtalk byte-classification block the buffer is unchanged,
cleared, or extended by one printable byte. -/
theorem dt_parseByteMain_buffer (ok : Bool) (st : DECtalk.State) (resp : List Nat)
    (evs : List SSIP) (b : Nat) (r : DECtalk.State × List Nat × List SSIP)
    (h : DECtalk.parseByteMain ok st resp evs b = Except.ok r) :
    r.1.characterBuffer = st.characterBuffer ∨ r.1.characterBuffer = [] ∨
      (r.1.characterBuffer = st.characterBuffer ++ [b] ∧ 0x20 ≤ b ∧ b ≤ 0x7E) := by
  unfold DECtalk.parseByteMain at h
  repeat' split at h
  all_goals (try exact (Except.noConfusion h))
  all_goals injection h with h
  all_goals subst h
  all_goals dsimp only
  all_goals (try (exact Or.inl rfl))
  all_goals (try (exact Or.inr (Or.inl rfl)))
  · rename_i hcond
    exact Or.inr (Or.inr ⟨rfl, hcond.1, hcond.2⟩)

/-- One full DECtalk parse step preserves the buffer invariant. -/
theorem dt_parseByte_bound (ok : Bool) (b : Nat) (st : DECtalk.State) (resp : List Nat)
    (evs : List SSIP) (h : dtBufInv st) :
    dtStepOk (DECtalk.parseByte ok (st, resp, evs) b) := by
  obtain ⟨hp, hl⟩ := h
  unfold DECtalk.parseByte
  dsimp only
  cases hm : DECtalk.parseByteMain ok st resp evs b with
  | error e => simp [dtStepOk]
  | ok r =>
    obtain ⟨st1, resp1, evs1⟩ := r
    have hb := dt_parseByteMain_buffer ok st resp evs b (st1, resp1, evs1) hm
    dsimp only at hb
    dsimp only
    by_cases hc : b = 0x03 ∨ b = 0x0B ∨ b = 0x5B ∨ st1.characterBuffer.length ≥ 4096
    · rw [if_pos hc]
      simp [dtStepOk, dtBufInv, printableBytes]
    · rw [if_neg hc]
      push_neg at hc
      simp only [dtStepOk, dtBufInv]
      refine ⟨?_, by omega⟩
      rcases hb with hb | hb | ⟨hb, hb1, hb2⟩
      · rw [hb]
        exact hp
      · rw [hb]
        intro x hx
        cases hx
      · rw [hb]
        intro x hx
        rcases List.mem_append.mp hx with hx | hx
        · exact hp x hx
        · rcases List.mem_singleton.mp hx with rfl
          exact ⟨hb1, hb2⟩

/-- One full LiteTalk parse step preserves the buffer invariant. -/
theorem lt_parseByte_bound (ok : Bool) (b : Nat) (st : LiteTalk.State)
    (evs : List SSIP) (h : ltBufInv st) :
    ltStepOk (LiteTalk.parseByte ok (st, evs) b) := by
  obtain ⟨hp, hl⟩ := h
  unfold LiteTalk.parseByte
  dsimp only
  cases hm : LiteTalk.parseByteMain ok st evs b with
  | error e => simp [ltStepOk]
  | ok r =>
    obtain ⟨st1, evs1⟩ := r
    have hb := lt_parseByteMain_buffer ok st evs b (st1, evs1) hm
    dsimp only at hb
    dsimp only
    by_cases hc : b = 0x00 ∨ b = 0x0D ∨ st1.received.length ≥ 4096
    · rw [if_pos hc]
      simp [ltStepOk, ltBufInv, printableBytes]
    · rw [if_neg hc]
      push_neg at hc
      simp only [ltStepOk, ltBufInv]
      refine ⟨?_, by omega⟩
      rcases hb with hb | hb | ⟨hb, hb1, hb2⟩
      · rw [hb]
        exact hp
      · rw [hb]
        intro x hx
        cases hx
      · rw [hb]
        intro x hx
        rcases List.mem_append.mp hx with hx | hx
        · exact hp x hx
        · rcases List.mem_singleton.mp hx with rfl
          exact ⟨hb1, hb2⟩

/-- The DECtalk parse loop preserves the buffer invariant over any byte
stream. -/
theorem dt_parse_bound (ok : Bool) (data : List Nat) :
    ∀ full : DECtalk.State × List Nat × List SSIP,
      dtBufInv full.1 → dtStepOk (DECtalk.parse ok data full) := by
  induction data with
  | nil =>
    intro full h
    simpa [DECtalk.parse, dtStepOk] using h
  | cons b rest ih =>
    intro full h
    obtain ⟨st, resp, evs⟩ := full
    unfold DECtalk.parse
    cases hm : DECtalk.parseByte ok (st, resp, evs) b with
    | error e => simp [dtStepOk]
    | ok full1 =>
      have h1 := dt_parseByte_bound ok b st resp evs h
      rw [hm] at h1
      simp only [dtStepOk] at h1
      exact ih full1 h1

/-- The LiteTalk parse loop preserves the buffer invariant over any byte
stream. -/
theorem lt_parse_bound (ok : Bool) (data : List Nat) :
    ∀ full : LiteTalk.State × List SSIP,
      ltBufInv full.1 → ltStepOk (LiteTalk.parse ok data full) := by
  induction data with
  | nil =>
    intro full h
    simpa [LiteTalk.parse, ltStepOk] using h
  | cons b rest ih =>
    intro full h
    obtain ⟨st, evs⟩ := full
    unfold LiteTalk.parse
    cases hm : LiteTalk.parseByte ok (st, evs) b with
    | error e => simp [ltStepOk]
    | ok full1 =>
      have h1 := lt_parseByte_bound ok b st evs h
      rw [hm] at h1
      simp only [ltStepOk] at h1
      exact ih full1 h1

/-- A printable non-bracket byte appended to a 4095-byte DECtalk buffer
triggers exactly one speech flush and clears the buffer. -/
theorem dt_flush_at_4096 (ok : Bool) (b : Nat) (st : DECtalk.State) (resp : List Nat)
    (evs : List SSIP) (hb1 : 0x20 ≤ b) (hb2 : b ≤ 0x7E) (h5b : b ≠ 0x5B) (h5d : b ≠ 0x5D)
    (hlen : st.characterBuffer.length = 4095) :
    DECtalk.parseByte ok (st, resp, evs) b =
      .ok ({ st with characterBuffer := [] }, resp,
        speakEv (decodeIgnore (st.characterBuffer ++ [b])) evs) := by
  have h03 : b ≠ 0x03 := by omega
  have h0b : b ≠ 0x0B := by omega
  unfold DECtalk.parseByte DECtalk.parseByteMain
  dsimp only
  rw [if_neg h03, if_neg h0b, if_neg h5b, if_neg h5d, if_pos (And.intro hb1 hb2)]
  dsimp only
  rw [if_pos (Or.inr (Or.inr (Or.inr (by simp [hlen]))))]

/-- A printable byte appended to a 4095-byte LiteTalk literal buffer (Idle
mode) triggers exactly one speech flush and clears the buffer. -/
theorem lt_flush_at_4096 (ok : Bool) (b : Nat) (st : LiteTalk.State) (evs : List SSIP)
    (hcm : st.commandMode = false) (hb1 : 0x20 ≤ b) (hb2 : b ≤ 0x7E)
    (hlen : st.received.length = 4095) :
    LiteTalk.parseByte ok (st, evs) b =
      .ok ({ st with received := [] }, speakEv (decodeIgnore (st.received ++ [b])) evs) := by
  have h18 : b ≠ 0x18 := by omega
  have h01 : b ≠ 0x01 := by omega
  unfold LiteTalk.parseByte LiteTalk.parseByteMain
  dsimp only
  rw [if_neg h18, if_neg h01, if_neg (by simp [hcm]), if_pos (And.intro hb1 hb2)]
  dsimp only
  rw [if_pos (Or.inr (Or.inr (by simp [hlen])))]

/-- C7: for both decoders, after each fully processed byte (and hence after
any byte stream) the scratch buffer holds strictly fewer than 4096 bytes; an
accumulation path reaching exactly 4096 bytes without a terminator performs
exactly one speech flush (one `speak` call site executed, conditional only on
the blank-text no-op inside `speak`) and resets the buffer to empty. -/
theorem scratch_buffer_bound :
    (∀ ok b st resp evs, dtBufInv st → dtStepOk (DECtalk.parseByte ok (st, resp, evs) b))
  ∧ (∀ ok data (full : DECtalk.State × List Nat × List SSIP), dtBufInv full.1 →
      dtStepOk (DECtalk.parse ok data full))
  ∧ (∀ ok b st evs, ltBufInv st → ltStepOk (LiteTalk.parseByte ok (st, evs) b))
  ∧ (∀ ok data (full : LiteTalk.State × List SSIP), ltBufInv full.1 →
      ltStepOk (LiteTalk.parse ok data full))
  ∧ (∀ ok b (st : DECtalk.State) resp evs, 0x20 ≤ b → b ≤ 0x7E → b ≠ 0x5B → b ≠ 0x5D →
      st.characterBuffer.length = 4095 →
      DECtalk.parseByte ok (st, resp, evs) b =
        .ok ({ st with characterBuffer := [] }, resp,
          speakEv (decodeIgnore (st.characterBuffer ++ [b])) evs))
  ∧ (∀ ok b (st : LiteTalk.State) evs, st.commandMode = false → 0x20 ≤ b → b ≤ 0x7E →
      st.received.length = 4095 →
      LiteTalk.parseByte ok (st, evs) b =
        .ok ({ st with received := [] }, speakEv (decodeIgnore (st.received ++ [b])) evs)) :=
  ⟨fun ok b st resp evs h => dt_parseByte_bound ok b st resp evs h,
   fun ok data full h => dt_parse_bound ok data full h,
   fun ok b st evs h => lt_parseByte_bound ok b st evs h,
   fun ok data full h => lt_parse_bound ok data full h,
   fun ok b st resp evs hb1 hb2 h5b h5d hlen =>
     dt_flush_at_4096 ok b st resp evs hb1 hb2 h5b h5d hlen,
   fun ok b st evs hcm hb1 hb2 hlen => lt_flush_at_4096 ok b st evs hcm hb1 hb2 hlen⟩

/-- C7 witness: the invariants at the initial states with concrete bytes and
streams, and the flush equations on a concrete 4095-byte buffer. -/
theorem scratch_buffer_bound_witness :
    dtStepOk (DECtalk.parseByte true (dtInit, [], []) 0x61)
  ∧ dtStepOk (DECtalk.parse true (strToBytes ("hi[:ra 300]")) (dtInit, [], []))
  ∧ ltStepOk (LiteTalk.parseByte true (ltInit, []) 0x61)
  ∧ ltStepOk (LiteTalk.parse true [0x01, 0x3F, 0x61] (ltInit, []))
  ∧ DECtalk.parseByte true ({ dtInit with characterBuffer := bigBuf }, [], []) 0x62 =
      .ok ({ dtInit with characterBuffer := [] }, [],
        speakEv (decodeIgnore (bigBuf ++ [0x62])) [])
  ∧ LiteTalk.parseByte true ({ ltInit with received := bigBuf }, []) 0x62 =
      .ok ({ ltInit with received := [] }, speakEv (decodeIgnore (bigBuf ++ [0x62])) []) :=
  ⟨scratch_buffer_bound.1 true 0x61 dtInit [] []
     ⟨fun x hx => absurd hx (by simp [dtInit]), by simp [dtInit]⟩,
   scratch_buffer_bound.2.1 true (strToBytes ("hi[:ra 300]")) (dtInit, [], [])
     ⟨fun x hx => absurd hx (by simp [dtInit]), by simp [dtInit]⟩,
   scratch_buffer_bound.2.2.1 true 0x61 ltInit []
     ⟨fun x hx => absurd hx (by simp [ltInit]), by simp [ltInit]⟩,
   scratch_buffer_bound.2.2.2.1 true [0x01, 0x3F, 0x61] (ltInit, [])
     ⟨fun x hx => absurd hx (by simp [ltInit]), by simp [ltInit]⟩,
   scratch_buffer_bound.2.2.2.2.1 true 0x62 ({ dtInit with characterBuffer := bigBuf }) [] []
     (by omega) (by omega) (by omega) (by omega) (by simp only [bigBuf, List.length_replicate]),
   scratch_buffer_bound.2.2.2.2.2 true 0x62 ({ ltInit with received := bigBuf }) []
     rfl (by omega) (by omega) (by simp only [bigBuf, List.length_replicate])⟩
